import Mathlib

/-!
Shallow embedding of the `@storehouse/mongodb` adapter (`src/index.ts`).

The adapter is a thin wrapper around the MongoDB driver: a `MongoDbManager`
class extending `MongoClient`, three lookup helper functions over an external
registry, and a health probe.  Pure logic (name parsing, error selection,
result construction) is translated directly; the environment (the system
clock, the driver's command execution, the registry's lookup tables) is
passed in as explicit parameters.
-/

namespace StorehouseMongoDb

/-- A BSON-ish primitive value; enough to state facts about ping responses
such as the check `pingResult.ok === 1`. -/
inductive BsonValue where
  | num (n : Int)
  | str (s : String)
  | boolean (b : Bool)
  deriving DecidableEq, Repr, BEq

/-- A BSON document, as an association list of fields. -/
abbrev Document := List (String × BsonValue)

/-- Field lookup in a document. -/
def docLookup (d : Document) (key : String) : Option BsonValue :=
  match d with
  | [] => none
  | (k, v) :: rest => if k = key then some v else docLookup rest key

/-- The command document sent by the probe methods. -/
def pingCommand : Document := [("ping", BsonValue.num 1)]

/-- A JavaScript thrown value as observed by a `catch` clause:
whether it is an `Error` instance, its `message`, its optional `stack`
(`Error.stack` is an optional property), and the result of `String(value)`. -/
structure ThrownValue where
  isErrorInstance : Bool
  message : String
  stack : Option String
  toStr : String
  deriving DecidableEq, Repr

/-- The driver's `db(name).command(doc)` operation, as an environment
parameter: given the targeted database name and a command document it either
resolves to a response document or rejects with a thrown value. -/
abbrev CommandExec := String → Document → Except ThrownValue Document

/-- Driver client options, passed through verbatim by the adapter. -/
abbrev MongoClientOptions := List (String × BsonValue)

/-- The `config` part of `MongoDbManagerArg`. -/
structure ManagerConfig where
  url : String
  options : Option MongoClientOptions
  deriving DecidableEq, Repr

/-- Constructor argument for `MongoDbManager`. -/
structure MongoDbManagerArg where
  name : Option String
  config : Option ManagerConfig
  deriving DecidableEq, Repr

/-- The three error kinds of the `@storehouse/core` taxonomy that this
adapter raises. -/
inductive StorehouseError where
  | invalidManagerConfig (message : String)
  | managerNotFound (managerName : String)
  | modelNotFound (modelName : String) (managerName : Option String)
  deriving DecidableEq, Repr

/-- State of a constructed `MongoDbManager` (which *is* a `MongoClient`):
its diagnostic name, the connection URI and options it was configured with,
and the name the driver reports for the URI's default database. -/
structure ManagerState where
  name : String
  url : String
  options : Option MongoClientOptions
  defaultDbName : String
  deriving DecidableEq, Repr

/-- A handle to a collection, as produced by `conn.db(dbName).collection(c)`. -/
structure CollectionRef where
  dbName : String
  collectionName : String
  deriving DecidableEq, Repr

/-- JavaScript `s || dflt` on an optional string: the empty string is falsy. -/
def jsStringOr (s : Option String) (dflt : String) : String :=
  match s with
  | some v => if v = "" then dflt else v
  | none => dflt

/-- Observable side effects of constructing a manager. -/
inductive Effect where
  | createClient (url : String) (options : Option MongoClientOptions)
  | registerListener (event : String)
  | logInfo (msg : String)
  | logWarn (msg : String)
  | logError (msg : String)
  | connect
  deriving DecidableEq, Repr

/-- Whether an effect is pure logging. -/
def Effect.isLog : Effect → Bool
  | .logInfo _ => true
  | .logWarn _ => true
  | .logError _ => true
  | _ => false

/-- The event of a listener-registration effect, if any. -/
def Effect.listenerEvent : Effect → Option String
  | .registerListener event => some event
  | _ => none

/-- The five lifecycle events wired by `#registerConnectionEvents`, in
registration order. -/
def connectionEvents : List String :=
  ["topologyOpening", "serverOpening", "serverClosed", "topologyClosed", "error"]

/-- The callback registered for a lifecycle event: each one only emits a log
line (`errMessage` stands for `err.message` in the `error` callback). -/
def connectionEventHandler (name : String) (event : String) (errMessage : String) :
    List Effect :=
  if event = "topologyOpening" then [Effect.logInfo ("[" ++ name ++ "] connecting ...")]
  else if event = "serverOpening" then [Effect.logInfo ("[" ++ name ++ "] connected!")]
  else if event = "serverClosed" then [Effect.logWarn ("[" ++ name ++ "] disconnected!")]
  else if event = "topologyClosed" then [Effect.logInfo ("[" ++ name ++ "] connection closed!")]
  else if event = "error" then [Effect.logError ("[" ++ name ++ "] connection error: " ++ errMessage)]
  else []

/-- The generated fallback name:
`MongoDB <Date.now()>_<randomBytes(3).toString('hex')>`. -/
def generatedName (now : Int) (randHex : String) : String :=
  "MongoDB " ++ toString now ++ "_" ++ randHex

/-- The `MongoDbManager` constructor.  `now` and `randHex` stand for the
clock and random-bytes reads used for the fallback name; `uriDefaultDbName`
is the default database the driver parses out of the URI.  Returns the
effects performed in order, and either the constructed state or the error
thrown.  The `config.url` truthiness check precedes every effect. -/
def MongoDbManager.construct (settings : MongoDbManagerArg) (now : Int)
    (randHex : String) (uriDefaultDbName : String) :
    List Effect × Except StorehouseError ManagerState :=
  match settings.config with
  | none => ([], .error (.invalidManagerConfig "Missing connection url"))
  | some cfg =>
    if cfg.url = "" then
      ([], .error (.invalidManagerConfig "Missing connection url"))
    else
      let name := jsStringOr settings.name (generatedName now randHex)
      ([Effect.createClient cfg.url cfg.options]
        ++ connectionEvents.map Effect.registerListener
        ++ [Effect.logInfo ("[" ++ name ++ "] MongoClient created. Must call \x22MongoClient.connect()\x22.")],
       .ok { name := name, url := cfg.url, options := cfg.options,
             defaultDbName := uriDefaultDbName })

/-- `getConnection()` returns `this`: the manager is its own client. -/
def MongoDbManager.getConnection (m : ManagerState) : ManagerState := m

/-- Splitting a character list at every occurrence of `c`; the JavaScript
semantics of `String.prototype.split` with a one-character separator
(an empty input yields one empty segment, adjacent separators yield empty
segments). -/
def splitChar (c : Char) : List Char → List (List Char)
  | [] => [[]]
  | ch :: rest =>
    let r := splitChar c rest
    if ch = c then [] :: r
    else
      match r with
      | [] => [[ch]]
      | hd :: tl => (ch :: hd) :: tl

/-- JavaScript `name.split('.')`. -/
def jsSplitDot (s : String) : List String :=
  (splitChar '.' s.toList).map List.asString

/-- `getModel(name)`: split `name` on a dot; two or more segments select
`db(names[0]).collection(names[1])`, one segment selects
`db().collection(names[0])` in the URI's default database. -/
def MongoDbManager.getModel (m : ManagerState) (name : String) : CollectionRef :=
  let conn := MongoDbManager.getConnection m
  let names := jsSplitDot name
  if 2 ≤ names.length then
    { dbName := names.getD 0 "", collectionName := names.getD 1 "" }
  else
    { dbName := conn.defaultDbName, collectionName := names.getD 0 "" }

/-- `isConnected()`: ping the default database, `true` on resolve, `false`
on any rejection. -/
def MongoDbManager.isConnected (m : ManagerState) (command : CommandExec) : Bool :=
  match command m.defaultDbName pingCommand with
  | .ok _ => true
  | .error _ => false

/-- The `details` map of a `MongoDbHealthCheckResult`. -/
structure HealthCheckDetails where
  name : String
  databaseName : Option String
  isOpen : Bool
  isReady : Bool
  pingResponse : Option Document
  latency : Option String
  error : Option String
  deriving DecidableEq, Repr

/-- The result value of `healthCheck()`. -/
structure MongoDbHealthCheckResult where
  healthy : Bool
  message : String
  details : HealthCheckDetails
  latency : Int
  timestamp : Int
  deriving DecidableEq, Repr

/-- `healthCheck()`.  `start` is the `Date.now()` reading taken on entry
(also used as `timestamp`); `endTime` is the `Date.now()` reading taken
after the ping settles; `command` is the driver's command execution. -/
def MongoDbManager.healthCheck (m : ManagerState) (start endTime : Int)
    (command : CommandExec) : MongoDbHealthCheckResult :=
  let timestamp := start
  match command m.defaultDbName pingCommand with
  | .ok pingResult =>
    let latency := endTime - start
    { healthy := true
      message := "MongoDB connection is healthy"
      details :=
        { name := m.name
          databaseName := some m.defaultDbName
          isOpen := true
          isReady := docLookup pingResult "ok" == some (BsonValue.num 1)
          pingResponse := some pingResult
          latency := some (toString latency ++ "ms")
          error := none }
      latency := latency
      timestamp := timestamp }
  | .error err =>
    { healthy := false
      message := "MongoDB health check failed: " ++
        (if err.isErrorInstance then err.message else err.toStr)
      details :=
        { name := m.name
          databaseName := none
          isOpen := false
          isReady := false
          pingResponse := none
          latency := none
          error := if err.isErrorInstance then err.stack else some err.toStr }
      latency := endTime - start
      timestamp := timestamp }

/-- A value held by the registry, as seen by the helpers' `instanceof`
checks: a manager built by this adapter (which, by `extends`, is also a
`MongoClient`), some other `MongoClient`, or anything else. -/
inductive RegisteredValue where
  | mongoDbManager (m : ManagerState)
  | mongoClient (tag : String)
  | other (tag : String)
  deriving DecidableEq, Repr

/-- `value instanceof MongoDbManager`. -/
def instanceOfMongoDbManager : RegisteredValue → Bool
  | .mongoDbManager _ => true
  | _ => false

/-- `value instanceof MongoClient`: `MongoDbManager extends MongoClient`,
so every manager is also a client. -/
def instanceOfMongoClient : RegisteredValue → Bool
  | .mongoDbManager _ => true
  | .mongoClient _ => true
  | _ => false

/-- The external `@storehouse/core` registry, as the contract consumed by
the helpers: a default manager name and the three lookup operations. -/
structure Registry where
  defaultManager : String
  getManagerFn : Option String → Option RegisteredValue
  getConnectionFn : Option String → Option RegisteredValue
  getModelFn : String → Option String → Option CollectionRef

/-- Helper `getModel(registry, managerName, modelName?)`: return the
registry's model or throw `ModelNotFoundError(modelName || managerName,
modelName ? managerName : undefined)`. -/
def getModel (registry : Registry) (managerName : String) (modelName : Option String) :
    Except StorehouseError CollectionRef :=
  match registry.getModelFn managerName modelName with
  | some model => .ok model
  | none =>
    .error (.modelNotFound
      (jsStringOr modelName managerName)
      (match modelName with
       | some mn => if mn = "" then none else some managerName
       | none => none))

/-- Helper `getManager(registry, managerName?)`. -/
def getManager (registry : Registry) (managerName : Option String) :
    Except StorehouseError RegisteredValue :=
  match registry.getManagerFn managerName with
  | none => .error (.managerNotFound (jsStringOr managerName registry.defaultManager))
  | some manager =>
    if instanceOfMongoDbManager manager then .ok manager
    else .error (.invalidManagerConfig
      ("Manager \x22" ++ jsStringOr managerName registry.defaultManager ++
        "\x22 is not instance of MongoDbManager"))

/-- Helper `getConnection(registry, managerName?)`. -/
def getConnection (registry : Registry) (managerName : Option String) :
    Except StorehouseError RegisteredValue :=
  match registry.getConnectionFn managerName with
  | none => .error (.managerNotFound (jsStringOr managerName registry.defaultManager))
  | some conn =>
    if instanceOfMongoClient conn then .ok conn
    else .error (.invalidManagerConfig
      ("Connection \x22" ++ jsStringOr managerName registry.defaultManager ++
        "\x22 is not instance of MongoClient"))

/-- A concrete manager state used by witnesses. -/
def mgr0 : ManagerState :=
  { name := "m0", url := "mongodb://localhost:27017/mydb",
    options := none, defaultDbName := "mydb" }

/-- A concrete successful ping response. -/
def okPingDoc : Document := [("ok", BsonValue.num 1)]

/-- A command execution that always resolves. -/
def execOk0 : CommandExec := fun _ _ => .ok okPingDoc

/-- A concrete thrown value: an `Error` instance with no stack. -/
def err0 : ThrownValue :=
  { isErrorInstance := true, message := "boom", stack := none, toStr := "Error: boom" }

/-- A command execution that always rejects with `err0`. -/
def execErr0 : CommandExec := fun _ _ => .error err0

/-- A registry that resolves nothing. -/
def reg0 : Registry :=
  { defaultManager := "default"
    getManagerFn := fun _ => none
    getConnectionFn := fun _ => none
    getModelFn := fun _ _ => none }

/-- Claim C1: for every state of the underlying client (including one whose
ping rejects immediately), `healthCheck` returns a result value on every
code path; its top-level `latency` equals the end reading minus the start
reading taken around the probe call, hence is non-negative whenever the
clock does not run backwards, and its `timestamp` equals the instant
recorded at the start of the probe. -/
theorem healthCheck_total_latency_nonneg (m : ManagerState) (start endTime : Int)
    (command : CommandExec) (h : start ≤ endTime) :
    (MongoDbManager.healthCheck m start endTime command).latency = endTime - start ∧
    0 ≤ (MongoDbManager.healthCheck m start endTime command).latency ∧
    (MongoDbManager.healthCheck m start endTime command).timestamp = start := by
  unfold MongoDbManager.healthCheck
  cases command m.defaultDbName pingCommand <;> simp <;> omega

/-- Witness for C1: the latency/timestamp facts at a concrete manager,
clock readings 2 and 7, and a rejecting ping. -/
theorem healthCheck_total_latency_nonneg_holds :
    (MongoDbManager.healthCheck mgr0 2 7 execErr0).latency = 7 - 2 ∧
    0 ≤ (MongoDbManager.healthCheck mgr0 2 7 execErr0).latency ∧
    (MongoDbManager.healthCheck mgr0 2 7 execErr0).timestamp = 2 :=
  healthCheck_total_latency_nonneg mgr0 2 7 execErr0 (by norm_num)

/-- Claim C3: `getModel` splits its argument on dots; with at least two
segments it targets the collection named by the second segment in the
database named by the first, with exactly one segment it targets that
collection in the URI's default database; in particular `movies` and
`mydb.movies` both resolve to a collection `movies`, in the default
database and in `mydb` respectively. -/
theorem getModel_dot_split (m : ManagerState) (name : String) :
    (2 ≤ (jsSplitDot name).length →
      MongoDbManager.getModel m name =
        { dbName := (jsSplitDot name).getD 0 "",
          collectionName := (jsSplitDot name).getD 1 "" }) ∧
    ((jsSplitDot name).length = 1 →
      MongoDbManager.getModel m name =
        { dbName := m.defaultDbName,
          collectionName := (jsSplitDot name).getD 0 "" }) ∧
    MongoDbManager.getModel m "movies" =
      { dbName := m.defaultDbName, collectionName := "movies" } ∧
    MongoDbManager.getModel m "mydb.movies" =
      { dbName := "mydb", collectionName := "movies" } := by
  refine ⟨fun h => ?_, fun h => ?_, ?_, ?_⟩ <;>
    simp only [MongoDbManager.getModel, MongoDbManager.getConnection]
  · rw [if_pos h]
  · rw [if_neg (by omega)]
  · rfl
  · rfl

/-- Witness for C3: the two-segment branch at the concrete name `a.b`. -/
theorem getModel_dot_split_holds :
    MongoDbManager.getModel mgr0 "a.b" =
      { dbName := "a", collectionName := "b" } := by
  have h := (getModel_dot_split mgr0 "a.b").1 (by decide)
  simpa using h

/-- Claim C4: `isConnected` always returns a boolean: `true` exactly when
the ping command against the default database resolves, `false` exactly
when that command rejects for any reason, the rejection being absorbed
rather than propagated. -/
theorem isConnected_never_throws (m : ManagerState) (command : CommandExec) :
    (MongoDbManager.isConnected m command = true ↔
      ∃ d, command m.defaultDbName pingCommand = Except.ok d) ∧
    (MongoDbManager.isConnected m command = false ↔
      ∃ e, command m.defaultDbName pingCommand = Except.error e) := by
  unfold MongoDbManager.isConnected
  cases h : command m.defaultDbName pingCommand <;> simp

/-- Witness for C4: a resolving ping yields `true`, a rejecting ping yields
`false`, at concrete inputs. -/
theorem isConnected_never_throws_holds :
    MongoDbManager.isConnected mgr0 execOk0 = true ∧
    MongoDbManager.isConnected mgr0 execErr0 = false :=
  ⟨(isConnected_never_throws mgr0 execOk0).1.mpr ⟨okPingDoc, rfl⟩,
   (isConnected_never_throws mgr0 execErr0).2.mpr ⟨err0, rfl⟩⟩

/-- Claim C10: on a successful health check the details map carries a
`latency` string equal to the measured latency number followed by `ms`;
on a failed health check the details map carries no latency field. -/
theorem healthCheck_details_latency (m : ManagerState) (start endTime : Int)
    (command : CommandExec) :
    (∀ d, command m.defaultDbName pingCommand = Except.ok d →
      (MongoDbManager.healthCheck m start endTime command).details.latency =
        some (toString (endTime - start) ++ "ms")) ∧
    (∀ e, command m.defaultDbName pingCommand = Except.error e →
      (MongoDbManager.healthCheck m start endTime command).details.latency = none) := by
  unfold MongoDbManager.healthCheck
  cases h : command m.defaultDbName pingCommand <;> simp

/-- Witness for C10: the success branch at clock readings 0 and 5 carries
the string `5ms`; the failure branch carries nothing. -/
theorem healthCheck_details_latency_holds :
    (MongoDbManager.healthCheck mgr0 0 5 execOk0).details.latency = some "5ms" ∧
    (MongoDbManager.healthCheck mgr0 0 5 execErr0).details.latency = none := by
  constructor
  · have h := (healthCheck_details_latency mgr0 0 5 execOk0).1 okPingDoc rfl
    simpa using h
  · exact (healthCheck_details_latency mgr0 0 5 execErr0).2 err0 rfl

/-- Claim C2 as stated requires `details.error` to be the stringified error
whenever no stack trace is available.  The code instead evaluates
`error instanceof Error ? error.stack : String(error)`: an `Error` instance
with no stack makes that expression `undefined`, not `String(error)`.
Counterexample: at `err0` (an `Error` with `stack` absent), the failure
result carries no `details.error` at all, contradicting the claim's demand
that it equal the stringified error. -/
theorem healthCheck_error_field_counterexample :
    err0.isErrorInstance = true ∧ err0.stack = none ∧
    (MongoDbManager.healthCheck mgr0 0 5 execErr0).details.error = none ∧
    (MongoDbManager.healthCheck mgr0 0 5 execErr0).details.error ≠ some err0.toStr :=
  ⟨rfl, rfl, rfl, fun h => Option.noConfusion h⟩

/-- Claim C2 (amended): `healthCheck` has exactly two terminal outcomes.
When the ping resolves it returns `healthy = true`, `details.isOpen = true`,
`details.isReady` equal to whether the response's `ok` field strictly
equals `1`, `details.databaseName` the default database's name, and the raw
response as `details.pingResponse`.  When the ping rejects it returns
`healthy = false`, `details.isOpen = false`, `details.isReady = false`,
`details.error` equal to the thrown value's stack when that value is an
`Error` instance (absent when that `Error` carries no stack) and otherwise
its stringification, and `latency` still computed from the same recorded
start instant. -/
theorem healthCheck_two_outcomes (m : ManagerState) (start endTime : Int)
    (command : CommandExec) :
    (∀ d, command m.defaultDbName pingCommand = Except.ok d →
      (MongoDbManager.healthCheck m start endTime command).healthy = true ∧
      (MongoDbManager.healthCheck m start endTime command).details.isOpen = true ∧
      (MongoDbManager.healthCheck m start endTime command).details.isReady =
        (docLookup d "ok" == some (BsonValue.num 1)) ∧
      (MongoDbManager.healthCheck m start endTime command).details.databaseName =
        some m.defaultDbName ∧
      (MongoDbManager.healthCheck m start endTime command).details.pingResponse = some d) ∧
    (∀ e, command m.defaultDbName pingCommand = Except.error e →
      (MongoDbManager.healthCheck m start endTime command).healthy = false ∧
      (MongoDbManager.healthCheck m start endTime command).details.isOpen = false ∧
      (MongoDbManager.healthCheck m start endTime command).details.isReady = false ∧
      (MongoDbManager.healthCheck m start endTime command).details.error =
        (if e.isErrorInstance then e.stack else some e.toStr) ∧
      (MongoDbManager.healthCheck m start endTime command).latency = endTime - start) := by
  unfold MongoDbManager.healthCheck
  cases h : command m.defaultDbName pingCommand <;> simp

/-- Witness for the amended C2: both outcomes at concrete inputs. -/
theorem healthCheck_two_outcomes_holds :
    ((MongoDbManager.healthCheck mgr0 0 5 execOk0).healthy = true ∧
      (MongoDbManager.healthCheck mgr0 0 5 execOk0).details.isReady = true ∧
      (MongoDbManager.healthCheck mgr0 0 5 execOk0).details.databaseName = some "mydb") ∧
    ((MongoDbManager.healthCheck mgr0 0 5 execErr0).healthy = false ∧
      (MongoDbManager.healthCheck mgr0 0 5 execErr0).details.error = none) := by
  have hok := (healthCheck_two_outcomes mgr0 0 5 execOk0).1 okPingDoc rfl
  have herr := (healthCheck_two_outcomes mgr0 0 5 execErr0).2 err0 rfl
  refine ⟨⟨hok.1, ?_, ?_⟩, herr.1, ?_⟩
  · rw [hok.2.2.1]; rfl
  · rw [hok.2.2.2.1]; rfl
  · rw [herr.2.2.2.1]; rfl

/-- The configuration predicate of claim C5: `config.url` is absent or the
empty string (`!settings.config?.url` is truthy). -/
def missingUrl (settings : MongoDbManagerArg) : Prop :=
  settings.config = none ∨ ∃ cfg, settings.config = some cfg ∧ cfg.url = ""

/-- Claim C5: the constructor throws `InvalidManagerConfigError` exactly when
`config.url` is absent or empty, and on that path it performs no effect at
all — in particular no client creation and no network activity; with a
non-empty `config.url` that error is never thrown. -/
theorem construct_requires_url (settings : MongoDbManagerArg) (now : Int)
    (randHex uriDb : String) :
    (missingUrl settings ↔
      (MongoDbManager.construct settings now randHex uriDb).2 =
        Except.error (StorehouseError.invalidManagerConfig "Missing connection url")) ∧
    (missingUrl settings →
      (MongoDbManager.construct settings now randHex uriDb).1 = []) ∧
    (¬ missingUrl settings →
      ∃ st, (MongoDbManager.construct settings now randHex uriDb).2 = Except.ok st) := by
  unfold MongoDbManager.construct missingUrl
  match h : settings.config with
  | none => simp
  | some cfg =>
    by_cases hu : cfg.url = "" <;> simp [hu]

/-- Witness for C5: settings with no `config` at all fail with the error and
perform no effect; settings with a non-empty url construct successfully. -/
theorem construct_requires_url_holds :
    ((MongoDbManager.construct { name := none, config := none } 0 "ab" "test").2 =
      Except.error (StorehouseError.invalidManagerConfig "Missing connection url") ∧
     (MongoDbManager.construct { name := none, config := none } 0 "ab" "test").1 = []) ∧
    (∃ st, (MongoDbManager.construct
        { name := some "m0",
          config := some { url := "mongodb://localhost:27017/mydb", options := none } }
        0 "ab" "mydb").2 = Except.ok st) :=
  ⟨⟨(construct_requires_url { name := none, config := none } 0 "ab" "test").1.mp
      (Or.inl rfl),
    (construct_requires_url { name := none, config := none } 0 "ab" "test").2.1
      (Or.inl rfl)⟩,
   (construct_requires_url
      { name := some "m0",
        config := some { url := "mongodb://localhost:27017/mydb", options := none } }
      0 "ab" "mydb").2.2
      (by intro h; rcases h with h | ⟨cfg, hc, hu⟩
          · exact Option.noConfusion h
          · injection hc with hc'; rw [← hc'] at hu; exact absurd hu (by decide))⟩

/-- Claim C6: a successful construction creates the configured client and
registers the five lifecycle observers, performs logging, and nothing else:
no `connect` effect ever occurs, the registered listener events are exactly
the five lifecycle events, and every lifecycle callback emits only log
effects (never a connect). -/
theorem construct_no_connect (settings : MongoDbManagerArg) (now : Int)
    (randHex uriDb : String) (st : ManagerState) (effects : List Effect)
    (h : MongoDbManager.construct settings now randHex uriDb = (effects, Except.ok st)) :
    (∃ cfg, settings.config = some cfg ∧
      effects =
        Effect.createClient cfg.url cfg.options ::
          (connectionEvents.map Effect.registerListener ++
            [Effect.logInfo ("[" ++ st.name ++
              "] MongoClient created. Must call \x22MongoClient.connect()\x22.")])) ∧
    Effect.connect ∉ effects ∧
    effects.filterMap Effect.listenerEvent = connectionEvents ∧
    connectionEvents.length = 5 ∧
    (∀ nm ev em, ∀ e ∈ connectionEventHandler nm ev em,
      e.isLog = true ∧ e ≠ Effect.connect) := by
  have hhandler : ∀ nm ev em : String, ∀ e ∈ connectionEventHandler nm ev em,
      e.isLog = true ∧ e ≠ Effect.connect := by
    intro nm ev em e he
    unfold connectionEventHandler at he
    repeat' split at he
    all_goals simp_all [Effect.isLog]
  rcases hc : settings.config with _ | cfg
  · simp only [MongoDbManager.construct, hc] at h
    exact Except.noConfusion (congrArg Prod.snd h)
  · by_cases hu : cfg.url = ""
    · simp only [MongoDbManager.construct, hc, hu, if_true] at h
      exact Except.noConfusion (congrArg Prod.snd h)
    · simp only [MongoDbManager.construct, hc, if_neg hu] at h
      injection h with h1 h2
      injection h2 with h3
      subst h1
      subst h3
      refine ⟨⟨cfg, rfl, rfl⟩, ?_, ?_, rfl, hhandler⟩
      · simp [connectionEvents]
      · simp [connectionEvents, Effect.listenerEvent]

/-- Witness for C6: a concrete valid construction performs no connect
effect. -/
theorem construct_no_connect_holds :
    Effect.connect ∉
      (MongoDbManager.construct
        { name := some "m0",
          config := some { url := "mongodb://localhost:27017/mydb", options := none } }
        0 "ab" "mydb").1 := by
  have h := construct_no_connect
    { name := some "m0",
      config := some { url := "mongodb://localhost:27017/mydb", options := none } }
    0 "ab" "mydb"
    { name := "m0", url := "mongodb://localhost:27017/mydb",
      options := none, defaultDbName := "mydb" }
    (MongoDbManager.construct
      { name := some "m0",
        config := some { url := "mongodb://localhost:27017/mydb", options := none } }
      0 "ab" "mydb").1
    rfl
  exact h.2.1

/-- Claim C7 as stated requires the `ManagerNotFoundError` to name the
requested manager whenever an argument was given.  The code computes the
reported name as `managerName || registry.defaultManager`, and the empty
string is falsy in JavaScript: requesting the manager named `""` from an
empty registry yields an error naming the registry's default manager,
not the requested `""`. -/
theorem getManager_empty_name_counterexample :
    reg0.getManagerFn (some "") = none ∧
    getManager reg0 (some "") =
      Except.error (StorehouseError.managerNotFound "default") ∧
    getManager reg0 (some "") ≠
      Except.error (StorehouseError.managerNotFound "") := by
  refine ⟨rfl, rfl, fun h => ?_⟩
  rw [show getManager reg0 (some "") =
      Except.error (StorehouseError.managerNotFound "default") from rfl] at h
  injection h with h1
  injection h1 with h2
  exact absurd h2 (by decide)

/-- Claim C7 (amended): for every registry and manager-name argument, the
helpers behave as follows, writing `reported` for the requested name when it
is a non-empty string and the registry's default manager name when the
argument was omitted or empty.  `getManager`: a failed lookup throws
`ManagerNotFoundError` naming `reported`; a lookup that returns a value that
is not a `MongoDbManager` instance throws `InvalidManagerConfigError`; a
lookup returning a `MongoDbManager` instance is returned unchanged.
`getConnection` behaves identically with the `MongoClient` instance check in
place of the `MongoDbManager` one. -/
theorem getManager_getConnection_lookup (registry : Registry)
    (managerName : Option String) :
    (registry.getManagerFn managerName = none →
      getManager registry managerName =
        Except.error (StorehouseError.managerNotFound
          (jsStringOr managerName registry.defaultManager))) ∧
    (∀ v, registry.getManagerFn managerName = some v →
      instanceOfMongoDbManager v = false →
      ∃ msg, getManager registry managerName =
        Except.error (StorehouseError.invalidManagerConfig msg)) ∧
    (∀ v, registry.getManagerFn managerName = some v →
      instanceOfMongoDbManager v = true →
      getManager registry managerName = Except.ok v) ∧
    (registry.getConnectionFn managerName = none →
      getConnection registry managerName =
        Except.error (StorehouseError.managerNotFound
          (jsStringOr managerName registry.defaultManager))) ∧
    (∀ v, registry.getConnectionFn managerName = some v →
      instanceOfMongoClient v = false →
      ∃ msg, getConnection registry managerName =
        Except.error (StorehouseError.invalidManagerConfig msg)) ∧
    (∀ v, registry.getConnectionFn managerName = some v →
      instanceOfMongoClient v = true →
      getConnection registry managerName = Except.ok v) := by
  unfold getManager getConnection
  refine ⟨fun h => ?_, fun v hv hi => ?_, fun v hv hi => ?_,
    fun h => ?_, fun v hv hi => ?_, fun v hv hi => ?_⟩ <;>
    simp_all

/-- Witness for the amended C7: against the empty registry `reg0`, requesting
the manager `x` reports `x` in the `ManagerNotFoundError`. -/
theorem getManager_getConnection_lookup_holds :
    getManager reg0 (some "x") =
      Except.error (StorehouseError.managerNotFound "x") := by
  have h := (getManager_getConnection_lookup reg0 (some "x")).1 rfl
  simpa [jsStringOr, reg0] using h

/-- Claim C8 as stated requires the three-argument shape to raise a
`ModelNotFoundError` carrying both the model name and the manager name.  The
code computes the carried model name as `modelName || managerName` and the
carried manager name as `modelName ? managerName : undefined`, and the empty
string is falsy: a three-argument call with model name `""` raises an error
carrying the manager name in the model-name slot and no manager name. -/
theorem getModel_empty_name_counterexample :
    reg0.getModelFn "mgr" (some "") = none ∧
    getModel reg0 "mgr" (some "") =
      Except.error (StorehouseError.modelNotFound "mgr" none) ∧
    getModel reg0 "mgr" (some "") ≠
      Except.error (StorehouseError.modelNotFound "" (some "mgr")) := by
  refine ⟨rfl, rfl, fun h => ?_⟩
  rw [show getModel reg0 "mgr" (some "") =
      Except.error (StorehouseError.modelNotFound "mgr" none) from rfl] at h
  injection h with h1
  injection h1 with h2 h3
  exact Option.noConfusion h3

/-- Claim C8 (amended): when the registry resolves the model, the helper
returns it unchanged.  When it does not: in the two-argument shape the error
carries the sole name argument as the model name and no manager name; in the
three-argument shape with a non-empty model name the error carries the model
name and the manager name; in the three-argument shape with an empty model
name the error carries the manager name in the model-name slot and no
manager name. -/
theorem getModel_lookup (registry : Registry) (managerName : String)
    (modelName : Option String) :
    (∀ v, registry.getModelFn managerName modelName = some v →
      getModel registry managerName modelName = Except.ok v) ∧
    (modelName = none → registry.getModelFn managerName modelName = none →
      getModel registry managerName modelName =
        Except.error (StorehouseError.modelNotFound managerName none)) ∧
    (∀ mn, modelName = some mn → mn ≠ "" →
      registry.getModelFn managerName modelName = none →
      getModel registry managerName modelName =
        Except.error (StorehouseError.modelNotFound mn (some managerName))) ∧
    (modelName = some "" → registry.getModelFn managerName modelName = none →
      getModel registry managerName modelName =
        Except.error (StorehouseError.modelNotFound managerName none)) := by
  unfold getModel
  refine ⟨fun v hv => ?_, fun hm h => ?_, fun mn hm hne h => ?_, fun hm h => ?_⟩ <;>
    simp_all [jsStringOr]

/-- Witness for the amended C8: a three-argument lookup of the model
`movies` in manager `mgr` against the empty registry carries both names. -/
theorem getModel_lookup_holds :
    getModel reg0 "mgr" (some "movies") =
      Except.error (StorehouseError.modelNotFound "movies" (some "mgr")) :=
  (getModel_lookup reg0 "mgr" (some "movies")).2.2.1 "movies" rfl (by decide) rfl

/-- Claim C9: the manager class extends the client class, so a manager's
`getConnection()` returns the manager itself, and every constructed manager
passes both the `instanceof MongoDbManager` check of the `getManager` helper
and the `instanceof MongoClient` check of the `getConnection` helper: when a
registry resolves a name to a manager, both helpers succeed with it. -/
theorem manager_is_its_own_connection (m : ManagerState) :
    MongoDbManager.getConnection m = m ∧
    instanceOfMongoDbManager (RegisteredValue.mongoDbManager m) = true ∧
    instanceOfMongoClient (RegisteredValue.mongoDbManager m) = true ∧
    (∀ (r : Registry) (n : Option String),
      r.getManagerFn n = some (RegisteredValue.mongoDbManager m) →
      getManager r n = Except.ok (RegisteredValue.mongoDbManager m)) ∧
    (∀ (r : Registry) (n : Option String),
      r.getConnectionFn n = some (RegisteredValue.mongoDbManager m) →
      getConnection r n = Except.ok (RegisteredValue.mongoDbManager m)) := by
  refine ⟨rfl, rfl, rfl, fun r n h => ?_, fun r n h => ?_⟩ <;>
    simp_all [getManager, getConnection, instanceOfMongoDbManager, instanceOfMongoClient]

/-- A registry that resolves every manager and connection lookup to the
manager `mgr0`. -/
def reg1 : Registry :=
  { defaultManager := "default"
    getManagerFn := fun _ => some (RegisteredValue.mongoDbManager mgr0)
    getConnectionFn := fun _ => some (RegisteredValue.mongoDbManager mgr0)
    getModelFn := fun _ _ => none }

/-- Witness for C9: both helpers succeed on a registry resolving to a
manager. -/
theorem manager_is_its_own_connection_holds :
    getManager reg1 none = Except.ok (RegisteredValue.mongoDbManager mgr0) ∧
    getConnection reg1 none = Except.ok (RegisteredValue.mongoDbManager mgr0) :=
  ⟨(manager_is_its_own_connection mgr0).2.2.2.1 reg1 none rfl,
   (manager_is_its_own_connection mgr0).2.2.2.2 reg1 none rfl⟩

end StorehouseMongoDb
